import Mathlib

/-!
Verification development for the rplc mirror-swap tool.

The definitions below are a shallow embedding of the Python sources:
  - src/rplc/lib/config.py  (ConfigParser: parse_config, remove_config_entry,
    _resolve_env_vars, _remove_code_blocks)
  - src/rplc/lib/mirror.py  (MirrorManager: swap_in, swap_out, delete,
    _update_envrc, _find_any_sentinel, _get_mirror_physical_path,
    _find_bare_gitignore_in_mirror, _move_path, _copy_path,
    _disable_gitignore_files, _enable_gitignore_files, __init__ binding)

Modelling conventions:
  - Python strings are Lean Strings; a file's text is modelled as its list of
    lines (str.splitlines / split('\n') level), byte contents as List Nat.
  - The filesystem state relevant to one managed entry is a record of the
    five locations the engine touches for it (source path, mirror path, the
    neutralized .gitignore sibling of the mirror path, sentinel, backup);
    distinct managed entries are assumed to have disjoint paths.
  - Directory contents are modelled as the list of contained files, each a
    (relative component path, bytes) pair; Path.rglob(".gitignore") is "files
    whose last component is .gitignore".
  - Python regex classes are modelled at ASCII level (re's [A-Z], [a-z] are
    ASCII; \w is approximated by ASCII alphanumeric or underscore, \s by the
    ASCII whitespace set that str.strip also uses).
  - pathlib.Path.resolve is modelled as lexical normalization of an absolute
    path (no symlinks); os.path.expanduser only expands a bare leading "~"
    (other users' home directories are host state, left verbatim).
-/

namespace Rplc

/-! ### Python string primitives -/

/-- Python str whitespace (the default strip set and re's ASCII \s). -/
def pyWs (c : Char) : Bool :=
  c = ' ' || c = '\t' || c = '\n' || c = '\x0d' || c = '\x0b' || c = '\x0c'

/-- Python str.strip() with default arguments. -/
def pstrip (s : String) : String :=
  ⟨((s.data.dropWhile pyWs).reverse.dropWhile pyWs).reverse⟩

/-- Python str.startswith at list-of-chars level (structural, so concrete
instances evaluate by kernel reduction). -/
def strHasPre (pre s : String) : Bool := pre.data.isPrefixOf s.data

/-- Python str.split(sep) for a one-char separator. -/
def splitOnCharGo (sep : Char) : List Char → List Char → List String
  | acc, [] => [⟨acc.reverse⟩]
  | acc, c :: cs =>
    if c = sep then ⟨acc.reverse⟩ :: splitOnCharGo sep [] cs
    else splitOnCharGo sep (c :: acc) cs

/-- Python str.split(sep) for a one-char separator. -/
def splitOnChar (sep : Char) (s : String) : List String :=
  splitOnCharGo sep [] s.data

/-- ASCII uppercase letter, the regex class [A-Z]. -/
def asciiUpper (c : Char) : Bool := 'A' ≤ c && c ≤ 'Z'

/-- ASCII lowercase letter, the regex class [a-z]. -/
def asciiLower (c : Char) : Bool := 'a' ≤ c && c ≤ 'z'

/-- ASCII word character, regex \w (ASCII approximation). -/
def wordChar (c : Char) : Bool :=
  asciiUpper c || asciiLower c || ('0' ≤ c && c ≤ '9') || c = '_'

/-- Does the char list start with one-or-more \s followed by a suffix
satisfying p (the regex fragment \s+ followed by p, where p starts with a
non-whitespace class so greedy matching is exact)? -/
def wsThen (p : List Char → Bool) : List Char → Bool
  | [] => false
  | c :: cs => pyWs c && p (cs.dropWhile pyWs)

/-- Does the char list start with [Dd]evelopment? -/
def startsDevelopment : List Char → Bool
  | c :: cs => (c = 'D' || c = 'd') && "evelopment".data.isPrefixOf cs
  | [] => false

/-- re.match(r'^#\s+[Dd]evelopment', s) and not re.match(r'^#{2,}', s),
the level-1 Development heading test of config.py line 47. -/
def matchDev1 (s : String) : Bool :=
  (match s.data with
   | '#' :: cs => wsThen startsDevelopment cs
   | [] => false
   | _ :: _ => false) &&
  !(strHasPre "##" s)

/-- re.match(r'^#{1,}\s+[Dd]evelopment', s): a Development heading at any
level (config.py lines 56, 70, 159, 169). -/
def matchDevAny (s : String) : Bool :=
  match s.data with
  | '#' :: cs => wsThen startsDevelopment (cs.dropWhile (· = '#'))
  | [] => false
  | _ :: _ => false

/-- re.match(r'^#\s+\w', s): a level-1 heading (config.py lines 60, 74,
161, 171). -/
def matchH1 (s : String) : Bool :=
  match s.data with
  | '#' :: cs => wsThen (fun l => match l with | d :: _ => wordChar d | [] => false) cs
  | [] => false
  | _ :: _ => false

/-- re.match(r'^#{1,}\s+\w', s): a heading at any level (config.py lines 66,
166). -/
def matchHAny (s : String) : Bool :=
  match s.data with
  | '#' :: cs => wsThen (fun l => match l with | d :: _ => wordChar d | [] => false)
      (cs.dropWhile (· = '#'))
  | [] => false
  | _ :: _ => false

/-- re.match(r'^[A-Z][a-z].*\s', s): the description-line heuristic of
config.py lines 86 and 179 (uppercase, lowercase, then some whitespace at
index two or later). -/
def isDescriptionLine (s : String) : Bool :=
  match s.data with
  | c0 :: c1 :: rest => asciiUpper c0 && asciiLower c1 && rest.any pyWs
  | _ => false

/-- Python str.rstrip('/'). -/
def rstripSlashes (s : String) : String :=
  ⟨(s.data.reverse.dropWhile (· = '/')).reverse⟩

/-- Python str.endswith('/'). -/
def endsWithSlash (s : String) : Bool :=
  match s.data.reverse with
  | '/' :: _ => true
  | [] => false
  | _ :: _ => false

/-! ### Environment variable and home expansion (config.py _resolve_env_vars)

The source calls os.path.expanduser followed by os.path.expandvars against
the ambient process environment; here the environment is an explicit
lookup function and the home directory an explicit string. -/

/-- Characters of a $VAR name, regex \w as used by posixpath._varprog. -/
def varChars (l : List Char) : List Char × List Char :=
  (l.takeWhile wordChar, l.dropWhile wordChar)

/-- One pass of os.path.expandvars: scan left to right for $name or
$\x7bname\x7d; a defined variable is replaced by its value (not rescanned),
an undefined one is left verbatim.  Fuel-indexed scanner; the fuel is the
remaining length, which suffices since at least one char is consumed per
step. -/
def expandVarsGo (env : String → Option String) : Nat → List Char → List Char
  | 0, l => l
  | _ + 1, [] => []
  | fuel + 1, '$' :: rest =>
    match rest with
    | '\x7b' :: r2 =>
      let nm := r2.takeWhile (· ≠ '\x7d')
      let r3 := r2.dropWhile (· ≠ '\x7d')
      (match r3 with
       | '\x7d' :: r4 =>
         match env ⟨nm⟩ with
         | some v => v.data ++ expandVarsGo env fuel r4
         | none => '$' :: '\x7b' :: nm ++ '\x7d' :: expandVarsGo env fuel r4
       | _ => '$' :: expandVarsGo env fuel rest)
    | c :: _ =>
      if wordChar c then
        let (nm, r3) := varChars rest
        match env ⟨nm⟩ with
        | some v => v.data ++ expandVarsGo env fuel r3
        | none => '$' :: nm ++ expandVarsGo env fuel r3
      else '$' :: expandVarsGo env fuel rest
    | [] => ['$']
  | fuel + 1, c :: rest => c :: expandVarsGo env fuel rest

/-- os.path.expandvars with an explicit environment. -/
def expandVars (env : String → Option String) (s : String) : String :=
  ⟨expandVarsGo env s.data.length s.data⟩

/-- os.path.expanduser restricted to a bare leading "~" (a "~user" form
depends on the host's user database and is left verbatim). -/
def expandUser (home : String) (s : String) : String :=
  match s.data with
  | '~' :: rest =>
    match rest with
    | [] => home
    | '/' :: _ => home ++ ⟨rest⟩
    | _ :: _ => s
  | _ => s

/-- ConfigParser._resolve_env_vars: expanduser then expandvars. -/
def resolveEnvVars (env : String → Option String) (home : String) (s : String) : String :=
  expandVars env (expandUser home s)

/-! ### ConfigParser.parse_config (config.py lines 27-103) -/

/-- The ParseState enum of config.py. -/
inductive PState where
  | searching
  | inDev
  | inRplc
  | done
deriving DecidableEq, Repr

/-- One managed entry as produced by parse_config: the resolved path string
and the is_directory flag.  (The parse-time mirror_path placeholder
Path("mirror_proj")/path is always overwritten by MirrorManager.__init__
before any use; it is modelled at bind time.) -/
structure PEntry where
  path : String
  isDirectory : Bool
deriving DecidableEq, Repr

/-- The loop state of parse_config: state, the found_rplc_config flag, and
the configs accumulated so far in document order. -/
structure PAcc where
  st : PState
  found : Bool
  cfgs : List PEntry
deriving DecidableEq, Repr

/-- One iteration of the parse_config loop on one line.  The break
statements of the source are modelled by making the done state absorbing,
which processes the remaining lines without effect. -/
def parseStep (resolve : String → String) (a : PAcc) (line : String) : PAcc :=
  let s := pstrip line
  match a.st with
  | .done => a
  | .searching =>
    if matchDev1 s then { a with st := .inDev } else a
  | .inDev =>
    if s = "## rplc-config" then { a with st := .inRplc, found := true }
    else if matchDevAny s then { a with st := .done }
    else if a.found && matchH1 s then { a with st := .done }
    else a
  | .inRplc =>
    if matchHAny s then
      if s = "## rplc-config" then a
      else if matchDevAny s then { a with st := .done }
      else if matchH1 s then { a with st := .done }
      else { a with st := .inDev }
    else if s ≠ "" && !(strHasPre "#" s) then
      if !(isDescriptionLine s) then
        { a with cfgs := a.cfgs ++
            [{ path := resolve (rstripSlashes s), isDirectory := endsWithSlash s }] }
      else a
    else a

/-- parse_config's loop run from an arbitrary accumulator. -/
def parseLinesFrom (resolve : String → String) (a : PAcc) (ls : List String) : PAcc :=
  ls.foldl (parseStep resolve) a

/-- The initial accumulator (SEARCHING_DEVELOPMENT, no rplc-config found,
no entries). -/
def initPAcc : PAcc := ⟨.searching, false, []⟩

/-- parse_config on a list of lines (after code-fence removal and
split('\n')). -/
def parseLines (resolve : String → String) (ls : List String) : List PEntry :=
  (parseLinesFrom resolve initPAcc ls).cfgs

/-! ### ConfigParser._remove_code_blocks (config.py lines 212-215)

re.sub(r"```[^`]*```", '', content): at a position starting with three
backticks, the greedy [^`]* runs to the first following backtick, where
three closing backticks must stand; otherwise no match starts at this
position and the scan advances one char. -/

/-- Is l exactly three backticks followed by r? -/
def fenceHead : List Char → Option (List Char)
  | '\x60' :: '\x60' :: '\x60' :: r => some r
  | _ => none

/-- Fuel-indexed scanner for the code-fence regex substitution. -/
def removeCodeBlocksGo : Nat → List Char → List Char
  | 0, l => l
  | _ + 1, [] => []
  | fuel + 1, c :: rest =>
    match fenceHead (c :: rest) with
    | some afterOpen =>
      let atClose := afterOpen.dropWhile (· ≠ '\x60')
      (match fenceHead atClose with
       | some afterClose => removeCodeBlocksGo fuel afterClose
       | none => c :: removeCodeBlocksGo fuel rest)
    | none => c :: removeCodeBlocksGo fuel rest

/-- ConfigParser._remove_code_blocks. -/
def removeCodeBlocks (s : String) : String :=
  ⟨removeCodeBlocksGo s.data.length s.data⟩

/-- ConfigParser.parse_config on a whole document string: strip fenced code
blocks, split on newline, run the state machine.  (A missing file yields
the empty document and hence the empty list.) -/
def parseConfig (resolve : String → String) (doc : String) : List PEntry :=
  parseLines resolve (splitOnChar '\n' (removeCodeBlocks doc))

/-! ### ConfigParser.remove_config_entry (config.py lines 118-209)

The document is its list of lines (splitlines level; the keepends line
terminators are not modelled since only line identity matters here).
Path values are compared at pathlib PurePath granularity: equal component
lists, where splitting drops empty and "." components. -/

/-- PurePosixPath component view of a path string: absolute flag plus
components ("";"." components dropped, as pathlib does). -/
def splitComps (s : String) : List String :=
  ((splitOnChar '/' s).filter (fun c => c ≠ "" && c ≠ "."))

/-- The target of a removal: path_to_remove in absolute component form, and
the rel_path the source computes from it (path_to_remove.relative_to(proj)
when that succeeds, otherwise path_to_remove itself). -/
structure RTarget where
  isAbsTarget : Bool
  absComps : List String
  relIsAbs : Bool
  relComps : List String
deriving DecidableEq, Repr

/-- Does a config path line match the removal target (config.py lines
181-194)?  The line's resolved path is compared against path_to_remove when
absolute, and against rel_path otherwise. -/
def lineMatches (resolve : String → String) (tgt : RTarget) (s : String) : Bool :=
  let resolved := resolve (rstripSlashes s)
  let isAbs := strHasPre "/" resolved
  if isAbs then
    tgt.isAbsTarget && splitComps resolved = tgt.absComps
  else
    !tgt.relIsAbs && splitComps resolved = tgt.relComps

/-- One line of remove_config_entry's loop: next state and whether the line
is kept.  Note this machine has no found_rplc_config flag and strips no
code fences, unlike parse_config's. -/
def removeStep (resolve : String → String) (tgt : RTarget) (st : PState) (line : String) :
    PState × Bool :=
  let s := pstrip line
  match st with
  | .searching =>
    (if matchDev1 s then .inDev else .searching, true)
  | .inDev =>
    (if s = "## rplc-config" then .inRplc
     else if matchDevAny s then .done
     else if matchH1 s then .done
     else .inDev, true)
  | .inRplc =>
    if matchHAny s then
      (if s = "## rplc-config" then .inRplc
       else if matchDevAny s then .done
       else if matchH1 s then .done
       else .inDev, true)
    else if s ≠ "" && !(strHasPre "#" s) then
      if !(isDescriptionLine s) && lineMatches resolve tgt s then (.inRplc, false)
      else (.inRplc, true)
    else (.inRplc, true)
  | .done => (.done, true)

/-- The trace of remove_config_entry's loop: for each line, the state in
which it was processed, the line, and whether it was kept. -/
def removeRun (resolve : String → String) (tgt : RTarget) :
    PState → List String → List (PState × String × Bool)
  | _, [] => []
  | st, l :: ls =>
    let r := removeStep resolve tgt st l
    (st, l, r.2) :: removeRun resolve tgt r.1 ls

/-- ConfigParser.remove_config_entry on a document's lines: the rewritten
lines and the modified flag it returns (the file is written back only when
the flag is true, which the line-level result already reflects). -/
def removeConfigEntry (resolve : String → String) (tgt : RTarget) (ls : List String) :
    List String × Bool :=
  let rows := removeRun resolve tgt .searching ls
  ((rows.filter (fun r => r.2.2)).map (fun r => r.2.1),
   rows.any (fun r => !r.2.2))

/-! ### MirrorManager: contents and gitignore neutralization (mirror.py)

A content is either a regular file's bytes or a directory, modelled as the
list of contained files as (relative component path, bytes) pairs.
Path.rglob(".gitignore") over a directory finds the contained files whose
last component is exactly ".gitignore"; the rename primitives act on that
last component.  Duplicate paths inside one directory listing do not occur
on a real filesystem and are not excluded by the model. -/

inductive Content where
  | file : List Nat → Content
  | dir : List (List String × List Nat) → Content
deriving DecidableEq, Repr

/-- Last component of a relative path. -/
def lastName : List String → Option String
  | [] => none
  | [n] => some n
  | _ :: r => lastName r

/-- Rename the last component of a relative path. -/
def renameLast (f : String → String) : List String → List String
  | [] => []
  | [n] => [f n]
  | n :: r => n :: renameLast f r

/-- The rename performed by _enable_gitignore_files on one name. -/
def enableName (n : String) : String :=
  if n = ".gitignore.rplc-disabled" then ".gitignore" else n

/-- The rename performed by _disable_gitignore_files on one name. -/
def disableName (n : String) : String :=
  if n = ".gitignore" then ".gitignore.rplc-disabled" else n

/-- rglob-and-rename of every contained ".gitignore.rplc-disabled". -/
def enableFiles (fs : List (List String × List Nat)) : List (List String × List Nat) :=
  fs.map (fun pr => (renameLast enableName pr.1, pr.2))

/-- rglob-and-rename of every contained ".gitignore". -/
def disableFiles (fs : List (List String × List Nat)) : List (List String × List Nat) :=
  fs.map (fun pr => (renameLast disableName pr.1, pr.2))

/-- MirrorManager._enable_gitignore_files at a path holding this content.
For a non-directory the source checks for a disabled sibling of the path in
the project tree; that sibling is not one of the managed locations and the
case is a no-op in reachable states, modelled as the identity. -/
def enableContent : Content → Content
  | .file d => .file d
  | .dir fs => .dir (enableFiles fs)

/-- MirrorManager._disable_gitignore_files on directory content (the
non-directory case moves the file to its neutralized sibling and is
modelled at the location level in storeSourceInMirror). -/
def disableContent : Content → Content
  | .file d => .file d
  | .dir fs => .dir (disableFiles fs)

/-- Does directory content contain a bare .gitignore
(rglob(".gitignore") nonempty)? -/
def hasBareGitignore : Content → Bool
  | .file _ => false
  | .dir fs => fs.any (fun pr => lastName pr.1 = some ".gitignore")

/-! ### MirrorManager: per-entry filesystem state -/

/-- One managed entry after binding: the source path relative to proj_dir
(nonempty component list) and the is_directory flag. -/
structure MEntry where
  relPath : List String
  isDirectory : Bool
deriving DecidableEq, Repr

/-- Basename of the entry (mirror_path.name = source_path.name). -/
def entryName (e : MEntry) : Option String := lastName e.relPath

/-- The filesystem contents at the five locations the engine touches for
one entry: source path (proj side), mirror path, the neutralized
.gitignore.rplc-disabled sibling of the mirror path, the sentinel
(rel.host.rplc_active, holding the encoding host and snapshot content, at
most one per entry), and the backup (rel.rplc.original). -/
structure EntryFs where
  source : Option Content
  mirror : Option Content
  neutral : Option Content
  sentinel : Option (String × Content)
  backup : Option Content
deriving DecidableEq, Repr

/-- MirrorManager._get_mirror_physical_path: the physical mirror content
and whether it sits at the neutralized sibling location. -/
def getMirrorPhysical (e : MEntry) (fs : EntryFs) : Option (Bool × Content) :=
  if e.isDirectory then fs.mirror.map (fun c => (false, c))
  else if entryName e = some ".gitignore" then fs.neutral.map (fun c => (true, c))
  else fs.mirror.map (fun c => (false, c))

/-- MirrorManager._find_bare_gitignore_in_mirror restricted to one entry:
the offending paths relative to the mirror root.  For a directory entry,
rglob(".gitignore") over its existing mirror directory; for a standalone
.gitignore entry, the bare mirror file itself if it exists. -/
def offenderList (e : MEntry) (fs : EntryFs) : List (List String) :=
  if e.isDirectory then
    match fs.mirror with
    | some (.dir files) =>
      (files.filter (fun pr => lastName pr.1 = some ".gitignore")).map
        (fun pr => e.relPath ++ pr.1)
    | _ => []
  else if entryName e = some ".gitignore" && fs.mirror.isSome then [e.relPath]
  else []

/-- The expected neutralized name reported for an offender (mirror.py line
123): the disabled suffix appended to the basename. -/
def expectedNeutralized (p : List String) : List String :=
  renameLast (fun n => n ++ ".rplc-disabled") p

/-! ### MirrorManager: the swap operations -/

/-- Console reports the operations produce, keyed by the entry's relative
path. -/
inductive Msg where
  | alreadySwappedIn (rel : List String)
  | conflictOtherHost (rel : List String) (host : String)
  | warnMirrorMissing (rel : List String)
  | swappedIn (rel : List String)
  | alreadySwappedOut (rel : List String)
  | initMirror (rel : List String)
  | warnNoBackup (rel : List String)
  | swappedOut (rel : List String)
deriving DecidableEq, Repr

/-- The swap_in loop body for one entry (mirror.py lines 136-172): sentinel
check, physical-content check, copy to sentinel, backup of an existing
source, move of the physical content to the source, and for directories
the re-enabling of contained .gitignore files. -/
def swapInEntry (host : String) (e : MEntry) (fs : EntryFs) : EntryFs × Msg :=
  match fs.sentinel with
  | some (h, _) =>
    if h = host then (fs, .alreadySwappedIn e.relPath)
    else (fs, .conflictOtherHost e.relPath h)
  | none =>
    match getMirrorPhysical e fs with
    | none => (fs, .warnMirrorMissing e.relPath)
    | some (fromNeutral, c) =>
      let fs1 := { fs with sentinel := some (host, c) }
      let fs2 :=
        if fs1.source.isSome then { fs1 with backup := fs1.source, source := none }
        else fs1
      let fs3 :=
        if fromNeutral then { fs2 with neutral := none, source := some c }
        else { fs2 with mirror := none, source := some c }
      let fs4 :=
        if e.isDirectory then { fs3 with source := fs3.source.map enableContent }
        else fs3
      (fs4, .swappedIn e.relPath)

/-- _move_path(source, mirror_path) followed by
_disable_gitignore_files(mirror_path) (mirror.py lines 201-202 and
210-211): directory content is neutralized in place; a file named
.gitignore is renamed onward to the neutralized sibling location. -/
def storeSourceInMirror (e : MEntry) (c : Content) (fs : EntryFs) : EntryFs :=
  match c with
  | .dir files =>
    { fs with source := none, mirror := some (.dir (disableFiles files)) }
  | .file d =>
    if entryName e = some ".gitignore" then
      { fs with source := none, mirror := none, neutral := some (.file d) }
    else
      { fs with source := none, mirror := some (.file d) }

/-- The swap_out loop body for one entry (mirror.py lines 186-225):
mirror-initialization when no sentinel and no physical mirror content
exist but a source does; otherwise move the source into the mirror,
restore the backup if present, and delete the sentinel. -/
def swapOutEntry (e : MEntry) (fs : EntryFs) : EntryFs × List Msg :=
  match fs.sentinel with
  | none =>
    if (getMirrorPhysical e fs).isNone && fs.source.isSome then
      match fs.source with
      | some c => (storeSourceInMirror e c fs, [.initMirror e.relPath])
      | none => (fs, [.alreadySwappedOut e.relPath])
    else (fs, [.alreadySwappedOut e.relPath])
  | some _ =>
    let fs1 :=
      match fs.source with
      | some c => storeSourceInMirror e c fs
      | none => fs
    let restored :=
      match fs1.backup with
      | some b => ({ fs1 with source := some b, backup := none }, ([] : List Msg))
      | none => (fs1, [.warnNoBackup e.relPath])
    ({ restored.1 with sentinel := none }, restored.2 ++ [.swappedOut e.relPath])

/-! ### MirrorManager: batch state and operations

A batch state holds the selected entries (the result of _filter_configs,
in selection order) with their per-entry filesystem contents, the
project-local .envrc file (none when absent; otherwise its lines), and the
config document's lines. -/

structure SwapFs where
  items : List (MEntry × EntryFs)
  envrc : Option (List String)
  configDoc : List String
deriving DecidableEq, Repr

/-- The marker line written by _update_envrc: "export RPLC_SWAPPED=1". -/
def rplcMarker : String := "export RPLC_SWAPPED=1"

/-- The line rewrite of _update_envrc (mirror.py lines 96-107): drop every
line that startswith the marker, then append the marker when setting.
(The file is rewritten joined by newline with a trailing newline; the
model works at splitlines level.) -/
def updateEnvrcLines (setVar : Bool) (lines : List String) : List String :=
  let kept := lines.filter (fun l => !(strHasPre rplcMarker l))
  if setVar then kept ++ [rplcMarker] else kept

/-- MirrorManager._update_envrc: no-op when env management is off or the
file does not exist (it is never created). -/
def updateEnvrcFile (manageEnv setVar : Bool) (envrc : Option (List String)) :
    Option (List String) :=
  if !manageEnv then envrc
  else
    match envrc with
    | none => none
    | some ls => some (updateEnvrcLines setVar ls)

/-- All bare-gitignore offenders over the selection, in selection order
(_find_bare_gitignore_in_mirror over the filtered configs). -/
def allOffenders (items : List (MEntry × EntryFs)) : List (List String) :=
  (items.map (fun it => offenderList it.1 it.2)).flatten

/-- MirrorManager.swap_in over a selection (mirror.py lines 109-172).
The bare-gitignore pre-flight failure raises SystemExit before any
mutation, reporting each offender with its expected neutralized name;
otherwise the envrc marker is set when the selection is nonempty and the
entries are processed in order. -/
def swapIn (manageEnv : Bool) (host : String) (s : SwapFs) :
    Except (List (List String × List String)) (SwapFs × List Msg) :=
  match allOffenders s.items with
  | _ :: _ =>
    .error ((allOffenders s.items).map (fun p => (p, expectedNeutralized p)))
  | [] =>
    let s1 :=
      match s.items with
      | [] => s
      | _ :: _ => { s with envrc := updateEnvrcFile manageEnv true s.envrc }
    let processed := s1.items.map (fun it =>
      let r := swapInEntry host it.1 it.2
      ((it.1, r.1), r.2))
    .ok ({ s1 with items := processed.map (fun pr => pr.1) },
         processed.map (fun pr => pr.2))

/-- MirrorManager.swap_out over a selection (mirror.py lines 174-225). -/
def swapOut (manageEnv : Bool) (s : SwapFs) : SwapFs × List Msg :=
  let s1 :=
    match s.items with
    | [] => s
    | _ :: _ => { s with envrc := updateEnvrcFile manageEnv false s.envrc }
  let processed := s1.items.map (fun it =>
    let r := swapOutEntry it.1 it.2
    ((it.1, r.1), r.2))
  ({ s1 with items := processed.map (fun pr => pr.1) },
   (processed.map (fun pr => pr.2)).flatten)

/-- The removal target remove_config_entry computes for an entry when
called from delete: path_to_remove is proj_dir/rel (absolute), whose
relative_to(proj_dir) is rel itself. -/
def mkTarget (projComps : List String) (rel : List String) : RTarget :=
  ⟨true, projComps ++ rel, false, rel⟩

/-- MirrorManager.delete over a selection (mirror.py lines 227-336).
An empty selection returns without doing anything.  Phase 1 collects every
selected entry holding a sentinel (any host) and raises SystemExit when
the list is nonempty, before any mutation.  Phase 2 removes each entry's
physical mirror content and backup, then removes its line from the config
document; the counts of deleted artifacts and removed config lines are
returned. -/
def deleteEntries (resolve : String → String) (projComps : List String) (s : SwapFs) :
    Except (List (List String × String)) (SwapFs × Nat × Nat) :=
  match s.items with
  | [] => .ok (s, 0, 0)
  | _ :: _ =>
    let swappedIn := s.items.filterMap (fun it =>
      it.2.sentinel.map (fun sc => (it.1.relPath, sc.1)))
    match swappedIn with
    | _ :: _ => .error swappedIn
    | [] =>
      let cleared := s.items.map (fun it =>
        let fs := it.2
        let fs1 :=
          match getMirrorPhysical it.1 fs with
          | some (true, _) => { fs with neutral := none }
          | some (false, _) => { fs with mirror := none }
          | none => fs
        (it.1, { fs1 with backup := none }))
      let deletedCount :=
        (s.items.filter (fun it => (getMirrorPhysical it.1 it.2).isSome)).length
      let docAndCount := s.items.foldl
        (fun (acc : List String × Nat) it =>
          let r := removeConfigEntry resolve (mkTarget projComps it.1.relPath) acc.1
          (r.1, acc.2 + (if r.2 then 1 else 0)))
        (s.configDoc, 0)
      .ok ({ s with items := cleared, configDoc := docAndCount.1 },
           deletedCount, docAndCount.2)

/-! ### MirrorManager.__init__ path binding (mirror.py lines 68-85)

Paths are an absolute flag plus components; Path./ replaces the base when
the right side is absolute; Path.resolve is lexical normalization of an
absolute path (empty, "." and ".." components processed, ".." popping at
the root); Path.relative_to strips a component prefix and raises
otherwise. -/

structure PathT where
  abs : Bool
  comps : List String
deriving DecidableEq, Repr

/-- pathlib's / operator: an absolute right side replaces the base. -/
def pjoin (b p : PathT) : PathT :=
  if p.abs then p else ⟨b.abs, b.comps ++ p.comps⟩

/-- One component step of lexical path normalization. -/
def normStep (acc : List String) (c : String) : List String :=
  if c = "" || c = "." then acc
  else if c = ".." then acc.dropLast
  else acc ++ [c]

/-- Lexical normalization of an absolute path's components. -/
def normAbs (cs : List String) : List String := cs.foldl normStep []

/-- Path.resolve modelled lexically; a relative path is left as is (the
engine only resolves absolute paths once proj_dir and mirror_dir are
absolute, which the theorems hypothesize). -/
def resolveP (p : PathT) : PathT :=
  ⟨p.abs, if p.abs then normAbs p.comps else p.comps⟩

/-- Path.relative_to: the component suffix, when base's components are a
prefix and the absolute flags agree. -/
def relativeToP (p b : PathT) : Option (List String) :=
  if p.abs = b.abs && b.comps.isPrefixOf p.comps then
    some (p.comps.drop b.comps.length)
  else none

/-- A bound entry: absolute source and mirror paths plus the directory
flag (the MirrorConfig record after __init__ rewrote its paths). -/
structure BoundEntry where
  source : PathT
  mirror : PathT
  isDirectory : Bool
deriving DecidableEq, Repr

/-- The binding loop of MirrorManager.__init__ over the parsed entries:
source = (proj_dir / path).resolve(), rel = source.relative_to(proj_dir)
(ValueError propagates as the error case, carrying the offending source),
mirror = (mirror_dir / rel).resolve(). -/
def bindGo (projR mirrorR : PathT) : List (PathT × Bool) → Except PathT (List BoundEntry)
  | [] => .ok []
  | (p, d) :: rest =>
    let src := resolveP (pjoin projR p)
    match relativeToP src projR with
    | none => .error src
    | some rel =>
      match bindGo projR mirrorR rest with
      | .error e => .error e
      | .ok bs =>
        .ok ({ source := src,
               mirror := resolveP (pjoin mirrorR ⟨false, rel⟩),
               isDirectory := d } :: bs)

/-- MirrorManager.__init__: resolve proj_dir and mirror_dir, then bind
every parsed entry. -/
def bindConfigs (projDir mirrorDir : PathT) (entries : List (PathT × Bool)) :
    Except PathT (List BoundEntry) :=
  bindGo (resolveP projDir) (resolveP mirrorDir) entries

/-! ### Theorems: the config parser claims -/

lemma parseStep_rplcHeading_searching_or_done (resolve : String → String) (a : PAcc)
    (h : a.st = PState.searching ∨ a.st = PState.done) :
    parseStep resolve a "## rplc-config" = a := by
  have hdev : matchDev1 (pstrip "## rplc-config") = false := by decide
  rcases h with h | h <;>
    simp [parseStep, h, hdev]

/-- C6: a line whose processing starts outside the scope of a level-1
Development section — the parse state machine stands in SEARCHING_DEVELOPMENT
or DONE when it is reached — contributes nothing when it is the
"## rplc-config" heading: the parse result of the whole document equals the
result with that heading deleted, whatever lines follow it. -/
theorem rplcConfig_outside_development_contributes_nothing
    (resolve : String → String) (pre post : List String)
    (h : (parseLinesFrom resolve initPAcc pre).st = PState.searching ∨
         (parseLinesFrom resolve initPAcc pre).st = PState.done) :
    parseLines resolve (pre ++ "## rplc-config" :: post) =
      parseLines resolve (pre ++ post) := by
  have h' : (List.foldl (parseStep resolve) initPAcc pre).st = PState.searching ∨
      (List.foldl (parseStep resolve) initPAcc pre).st = PState.done := h
  unfold parseLines parseLinesFrom
  rw [List.foldl_append, List.foldl_append, List.foldl_cons,
    parseStep_rplcHeading_searching_or_done resolve _ h']

/-- C6 witness: the document ["intro", "## rplc-config", "paths.yml"] has no
level-1 Development heading, so the heading contributes nothing and the
parse result is that of ["intro", "paths.yml"]. -/
theorem rplcConfig_outside_development_witness :
    parseLines (fun s => s) (["intro"] ++ "## rplc-config" :: ["paths.yml"]) =
      parseLines (fun s => s) (["intro"] ++ ["paths.yml"]) :=
  rplcConfig_outside_development_contributes_nothing (fun s => s) ["intro"]
    ["paths.yml"] (Or.inl (by decide))

/-- C8: parsing the document "# Development" / "## rplc-config" / "a.yml" /
"b/" returns exactly the entries a.yml (non-directory) then b (directory,
trailing separator stripped), in document order, under any process
environment and home directory (neither line holds a variable reference or
a home marker). -/
theorem parse_concrete_two_entries
    (env : String → Option String) (home : String) :
    parseConfig (resolveEnvVars env home)
        "# Development\n## rplc-config\na.yml\nb/" =
      [{ path := "a.yml", isDirectory := false },
       { path := "b", isDirectory := true }] := by
  rfl

/-- C8 witness: the theorem applied to the empty environment and home
"/root". -/
theorem parse_concrete_two_entries_witness :
    parseConfig (resolveEnvVars (fun _ => none) "/root")
        "# Development\n## rplc-config\na.yml\nb/" =
      [{ path := "a.yml", isDirectory := false },
       { path := "b", isDirectory := true }] :=
  parse_concrete_two_entries (fun _ => none) "/root"

/-- C7 counterexample: in the document ["# Development", "# Other",
"## rplc-config", "a.yml"], parse_config's machine (which terminates at a
level-1 heading inside the Development section only once an entries-block
has been found) classifies the line "a.yml" as inside an entries-block and
returns it as an entry, while remove_config_entry's machine (which
terminates at any level-1 heading) is DONE there: the matching line is not
removed, so the two machines are not identical and removal eligibility is
not equivalent to parse-time classification. -/
theorem removeEntry_machine_differs_from_parse :
    parseLines (fun s => s) ["# Development", "# Other", "## rplc-config", "a.yml"] =
      [{ path := "a.yml", isDirectory := false }] ∧
    lineMatches (fun s => s) (mkTarget ["proj"] ["a.yml"]) (pstrip "a.yml") = true ∧
    removeConfigEntry (fun s => s) (mkTarget ["proj"] ["a.yml"])
        ["# Development", "# Other", "## rplc-config", "a.yml"] =
      (["# Development", "# Other", "## rplc-config", "a.yml"], false) := by
  refine ⟨by decide, by decide, by decide⟩

/-- C7 (amended): remove_config_entry scopes removal with its own heading
state machine — which, unlike parse_config's, closes the Development section
at any level-1 heading even before an entries-block was found, and strips no
code fences — and a line is dropped only when that machine stands in the
entries-block state at the line and the stripped line matches the removal
target; a line processed outside an entries-block is never removed. -/
theorem removeEntry_drops_only_inside_entries_block
    (resolve : String → String) (tgt : RTarget) (st : PState) (ls : List String)
    (row : PState × String × Bool) (hmem : row ∈ removeRun resolve tgt st ls)
    (hdrop : row.2.2 = false) :
    row.1 = PState.inRplc ∧ lineMatches resolve tgt (pstrip row.2.1) = true := by
  induction ls generalizing st with
  | nil => simp [removeRun] at hmem
  | cons l rest ih =>
    rw [removeRun] at hmem
    rcases List.mem_cons.mp hmem with hrow | hrow
    · subst hrow
      simp only at hdrop ⊢
      cases st with
      | searching => simp [removeStep] at hdrop
      | inDev => simp [removeStep] at hdrop
      | done => simp [removeStep] at hdrop
      | inRplc =>
        refine ⟨rfl, ?_⟩
        simp only [removeStep] at hdrop
        split at hdrop
        · simp at hdrop
        · split at hdrop
          · split at hdrop
            · rename_i hm
              exact (Bool.and_eq_true_iff.mp hm).2
            · simp at hdrop
          · simp at hdrop
    · exact ih _ hrow

/-- C7 witness: in a well-formed document the line "a.yml" inside the
entries-block is dropped, and the theorem confirms the drop happened in the
entries-block state on a matching line. -/
theorem removeEntry_drops_only_inside_entries_block_witness :
    (PState.inRplc, "a.yml", false) ∈
      removeRun (fun s => s) (mkTarget ["proj"] ["a.yml"]) PState.searching
        ["# Development", "## rplc-config", "a.yml"] ∧
    (PState.inRplc = PState.inRplc ∧
      lineMatches (fun s => s) (mkTarget ["proj"] ["a.yml"]) (pstrip "a.yml") = true) :=
  ⟨by decide,
   removeEntry_drops_only_inside_entries_block (fun s => s)
     (mkTarget ["proj"] ["a.yml"]) PState.searching
     ["# Development", "## rplc-config", "a.yml"]
     (PState.inRplc, "a.yml", false) (by decide) rfl⟩

/-! ### Theorems: the environment marker claims -/

/-- C9 counterexample: the line "export RPLC_SWAPPED=100" is not the exact
marker-assignment line, yet _update_envrc removes it (the source strips by
startswith, not by equality), so not every non-marker line survives the
rewrite. -/
theorem updateEnvrc_strips_by_startswith :
    updateEnvrcFile true false (some ["export RPLC_SWAPPED=100", "layout python"]) =
      some ["layout python"] ∧
    "export RPLC_SWAPPED=100" ≠ rplcMarker ∧
    "export RPLC_SWAPPED=100" ∉ ["layout python"] := by
  refine ⟨by decide, by decide, by decide⟩

/-- C9 (amended): _update_envrc modifies at most the lines that start with
the marker prefix "export RPLC_SWAPPED=1" (not only the exact marker line):
the lines without that prefix in the rewritten file are exactly those of the
original, in order; and a missing environment file is never created. -/
theorem updateEnvrc_frame (manageEnv setVar : Bool) :
    updateEnvrcFile manageEnv setVar none = none ∧
    ∀ ls : List String, ∃ ls',
      updateEnvrcFile manageEnv setVar (some ls) = some ls' ∧
      ls'.filter (fun l => !(strHasPre rplcMarker l)) =
        ls.filter (fun l => !(strHasPre rplcMarker l)) := by
  constructor
  · cases manageEnv <;> simp [updateEnvrcFile]
  · intro ls
    cases manageEnv with
    | false => exact ⟨ls, by simp [updateEnvrcFile], rfl⟩
    | true =>
      refine ⟨updateEnvrcLines setVar ls, by simp [updateEnvrcFile], ?_⟩
      have hm : strHasPre rplcMarker rplcMarker = true := by decide
      cases setVar with
      | false =>
        simp [updateEnvrcLines, List.filter_filter]
      | true =>
        simp [updateEnvrcLines, List.filter_filter, List.filter_append, hm]

/-! ### Theorems: swap_in pre-flight (C4) -/

/-- C4: when any selected entry holds a bare (un-neutralized) .gitignore in
the mirror — under a selected directory entry or as a selected standalone
.gitignore entry — swap_in aborts the entire call before any mutation (no
move, copy, sentinel, backup or environment-marker write happens), and the
failure reports every offending path paired with its expected neutralized
name. -/
theorem swapIn_bare_gitignore_aborts_whole_call
    (manageEnv : Bool) (host : String) (s : SwapFs)
    (h : allOffenders s.items ≠ []) :
    swapIn manageEnv host s =
      .error ((allOffenders s.items).map (fun p => (p, expectedNeutralized p))) := by
  unfold swapIn
  cases ho : allOffenders s.items with
  | nil => exact absurd ho h
  | cons o os => simp only [ho]

/-- C4 witness: a directory entry whose mirror holds a bare .gitignore makes
swap_in fail with that offender and its expected neutralized name. -/
theorem swapIn_bare_gitignore_aborts_whole_call_witness :
    swapIn true "h"
        ⟨[(⟨["b"], true⟩,
           ⟨none, some (.dir [([".gitignore"], [7])]), none, none, none⟩)],
         some ["layout python"], []⟩ =
      .error [(["b", ".gitignore"], ["b", ".gitignore.rplc-disabled"])] :=
  swapIn_bare_gitignore_aborts_whole_call true "h"
    ⟨[(⟨["b"], true⟩,
       ⟨none, some (.dir [([".gitignore"], [7])]), none, none, none⟩)],
     some ["layout python"], []⟩ (by decide)

/-! ### Theorems: delete atomicity (C2) -/

/-- C2: when any selected entry holds a live sentinel (any hostname), the
whole delete call fails before any mutation: no mirror content or backup is
removed and no config line is rewritten (the error is raised before phase
two), and the failure lists that entry with the host holding it. -/
theorem delete_aborts_when_any_sentinel
    (resolve : String → String) (projComps : List String) (s : SwapFs)
    (e : MEntry) (fs : EntryFs)
    (hmem : (e, fs) ∈ s.items) (host : String) (c : Content)
    (hsent : fs.sentinel = some (host, c)) :
    ∃ L, deleteEntries resolve projComps s = .error L ∧ (e.relPath, host) ∈ L := by
  have hne : s.items ≠ [] := by
    intro hnil
    rw [hnil] at hmem
    exact absurd hmem (List.not_mem_nil _)
  have hmemL : (e.relPath, host) ∈ s.items.filterMap (fun it =>
      it.2.sentinel.map (fun sc => (it.1.relPath, sc.1))) := by
    refine List.mem_filterMap.mpr ⟨(e, fs), hmem, ?_⟩
    simp [hsent]
  refine ⟨s.items.filterMap (fun it =>
      it.2.sentinel.map (fun sc => (it.1.relPath, sc.1))), ?_, hmemL⟩
  simp only [deleteEntries]
  split
  · rename_i hnil
    exact absurd hnil hne
  · split
    · rfl
    · rename_i hsw
      rw [hsw] at hmemL
      exact absurd hmemL (List.not_mem_nil _)

/-- C2 witness: deleting a selection whose single entry is swapped in on
host "hx" fails and names that entry and host. -/
theorem delete_aborts_when_any_sentinel_witness :
    ∃ L, deleteEntries (fun s => s) ["proj"]
        ⟨[(⟨["a.yml"], false⟩,
           ⟨none, some (.file [2]), none, some ("hx", .file [2]), none⟩)],
         none, ["# Development", "## rplc-config", "a.yml"]⟩ = .error L ∧
      (["a.yml"], "hx") ∈ L :=
  delete_aborts_when_any_sentinel (fun s => s) ["proj"]
    ⟨[(⟨["a.yml"], false⟩,
       ⟨none, some (.file [2]), none, some ("hx", .file [2]), none⟩)],
     none, ["# Development", "## rplc-config", "a.yml"]⟩
    ⟨["a.yml"], false⟩
    ⟨none, some (.file [2]), none, some ("hx", .file [2]), none⟩
    (by decide) "hx" (.file [2]) rfl

/-! ### Theorems: mutual exclusion (C3) -/

/-- C3 counterexample: an entry held by host "h1" is selected by a swap_in
under host "h2"; the entry itself is untouched and the conflict names "h1",
but the filesystem is not completely unchanged — swap_in updates the
project-local .envrc before the per-entry loop whenever the selection is
nonempty, appending the marker line. -/
theorem swapIn_conflict_still_writes_envrc :
    swapIn true "h2"
        ⟨[(⟨["a.yml"], false⟩,
           ⟨some (.file [1]), some (.file [2]), none, some ("h1", .file [2]), none⟩)],
         some ["layout python"], []⟩ =
      .ok (⟨[(⟨["a.yml"], false⟩,
              ⟨some (.file [1]), some (.file [2]), none, some ("h1", .file [2]), none⟩)],
            some ["layout python", "export RPLC_SWAPPED=1"], []⟩,
           [Msg.conflictOtherHost ["a.yml"] "h1"]) ∧
    some ["layout python", "export RPLC_SWAPPED=1"] ≠ some ["layout python"] := by
  refine ⟨rfl, by decide⟩

/-- C3 (amended): a swap_in under host H2 selecting an entry whose sentinel
encodes H1 ≠ H2 (pre-flight passing) leaves the entry's source, mirror,
neutralized-mirror, sentinel and backup contents unchanged and reports a
conflict naming H1; the project-local environment file is still rewritten
with the marker set, because the selection is nonempty. -/
theorem swapIn_foreign_sentinel_entry_untouched
    (manageEnv : Bool) (h2 : String) (e : MEntry) (fs : EntryFs)
    (envrc : Option (List String)) (doc : List String)
    (h1 : String) (c : Content)
    (hsent : fs.sentinel = some (h1, c)) (hne : h1 ≠ h2)
    (hoff : offenderList e fs = []) :
    swapIn manageEnv h2 ⟨[(e, fs)], envrc, doc⟩ =
      .ok (⟨[(e, fs)], updateEnvrcFile manageEnv true envrc, doc⟩,
           [Msg.conflictOtherHost e.relPath h1]) := by
  have hall : allOffenders [(e, fs)] = [] := by
    simp [allOffenders, hoff]
  unfold swapIn
  simp only [hall, swapInEntry, hsent, hne, if_false, List.map_cons, List.map_nil]

/-- C3 witness: the amended theorem at a concrete entry held by "h1". -/
theorem swapIn_foreign_sentinel_entry_untouched_witness :
    swapIn false "h2"
        ⟨[(⟨["cfg"], false⟩,
           ⟨some (.file [3]), some (.file [4]), none, some ("h1", .file [4]), none⟩)],
         none, []⟩ =
      .ok (⟨[(⟨["cfg"], false⟩,
              ⟨some (.file [3]), some (.file [4]), none, some ("h1", .file [4]), none⟩)],
            updateEnvrcFile false true none, []⟩,
           [Msg.conflictOtherHost ["cfg"] "h1"]) :=
  swapIn_foreign_sentinel_entry_untouched false "h2" ⟨["cfg"], false⟩
    ⟨some (.file [3]), some (.file [4]), none, some ("h1", .file [4]), none⟩
    none [] "h1" (.file [4]) rfl (by decide) (by decide)

/-! ### Round-trip machinery (C1) and idempotence machinery (C5) -/

lemma renameLast_cons_cons (f : String → String) (m : String) (r2 : List String) :
    ∃ y ys, renameLast f (m :: r2) = y :: ys := by
  cases r2 <;> exact ⟨_, _, rfl⟩

lemma renameLast_roundtrip (p : List String) (hp : lastName p ≠ some ".gitignore") :
    renameLast disableName (renameLast enableName p) = p := by
  induction p with
  | nil => rfl
  | cons n r ih =>
    cases r with
    | nil =>
      have hn : n ≠ ".gitignore" := by simpa [lastName] using hp
      by_cases hd : n = ".gitignore.rplc-disabled"
      · subst hd
        simp [renameLast, enableName, disableName]
      · simp [renameLast, enableName, disableName, hd, hn]
    | cons m r2 =>
      have hp2 : lastName (m :: r2) ≠ some ".gitignore" := by
        simpa [lastName] using hp
      obtain ⟨y, ys, hy⟩ := renameLast_cons_cons enableName m r2
      calc renameLast disableName (renameLast enableName (n :: m :: r2))
          = renameLast disableName (n :: renameLast enableName (m :: r2)) := rfl
        _ = renameLast disableName (n :: y :: ys) := by rw [hy]
        _ = n :: renameLast disableName (y :: ys) := rfl
        _ = n :: renameLast disableName (renameLast enableName (m :: r2)) := by rw [hy]
        _ = n :: (m :: r2) := by rw [ih hp2]

lemma disableFiles_enableFiles (files : List (List String × List Nat))
    (h : ∀ pr ∈ files, ¬(lastName pr.1 = some ".gitignore")) :
    disableFiles (enableFiles files) = files := by
  induction files with
  | nil => rfl
  | cons pr rest ih =>
    have h1 : lastName pr.1 ≠ some ".gitignore" := h pr (List.mem_cons_self pr rest)
    have h2 : ∀ q ∈ rest, ¬(lastName q.1 = some ".gitignore") :=
      fun q hq => h q (List.mem_cons_of_mem pr hq)
    simp only [disableFiles, enableFiles, List.map_cons] at ih ⊢
    rw [renameLast_roundtrip pr.1 h1]
    rw [ih h2]

lemma updateEnvrcLines_true_idem (ls : List String) :
    updateEnvrcLines true (updateEnvrcLines true ls) = updateEnvrcLines true ls := by
  have hm : strHasPre rplcMarker rplcMarker = true := by decide
  simp [updateEnvrcLines, List.filter_append, List.filter_filter, hm]

lemma updateEnvrcFile_true_idem (me : Bool) (x : Option (List String)) :
    updateEnvrcFile me true (updateEnvrcFile me true x) = updateEnvrcFile me true x := by
  cases me with
  | false => simp [updateEnvrcFile]
  | true =>
    cases x with
    | none => simp [updateEnvrcFile]
    | some ls => simp [updateEnvrcFile, updateEnvrcLines_true_idem]

lemma swapInEntry_sentinel_preserved (host : String) (e : MEntry) (fs : EntryFs)
    (hsent : fs.sentinel = none) (b : Bool) (c : Content)
    (hphys : getMirrorPhysical e fs = some (b, c)) :
    (swapInEntry host e fs).1.sentinel = some (host, c) := by
  unfold swapInEntry
  rw [hsent, hphys]
  by_cases hs : fs.source.isSome <;> by_cases hb : b <;> by_cases hd : e.isDirectory <;>
    simp [hs, hb, hd]

lemma offenderList_after_swapInEntry (host : String) (e : MEntry) (fs : EntryFs)
    (hoff : offenderList e fs = []) :
    offenderList e (swapInEntry host e fs).1 = [] := by
  unfold swapInEntry
  cases hsent : fs.sentinel with
  | some pr =>
    by_cases hh : pr.1 = host <;> simp [hh, hoff]
  | none =>
    cases hphys : getMirrorPhysical e fs with
    | none => simpa using hoff
    | some bc =>
      obtain ⟨b, c⟩ := bc
      by_cases hd : e.isDirectory
      · have hb : b = false := by
          unfold getMirrorPhysical at hphys
          rw [if_pos hd] at hphys
          cases hm : fs.mirror with
          | none => rw [hm] at hphys; simp at hphys
          | some mc => rw [hm] at hphys; simp at hphys; exact hphys.1
        subst hb
        by_cases hs : fs.source.isSome <;>
          simp [hs, hd, offenderList]
      · by_cases hg : entryName e = some ".gitignore"
        · have hb : b = true := by
            unfold getMirrorPhysical at hphys
            rw [if_neg hd, if_pos hg] at hphys
            cases hn : fs.neutral with
            | none => rw [hn] at hphys; simp at hphys
            | some nc => rw [hn] at hphys; simp at hphys; exact hphys.1
          subst hb
          have hmir : fs.mirror.isSome = false := by
            by_cases hm : fs.mirror.isSome
            · exfalso
              have hx : offenderList e fs = [e.relPath] := by
                simp [offenderList, hd, hg, hm]
              rw [hx] at hoff
              simp at hoff
            · simpa using hm
          by_cases hs : fs.source.isSome <;>
            simp [hs, hd, hg, offenderList, hmir]
        · by_cases hs : fs.source.isSome <;> by_cases hb : b <;>
            simp [hs, hb, hd, hg, offenderList]

lemma entryRoundTrip (host : String) (e : MEntry) (fs : EntryFs)
    (hsent : fs.sentinel = none)
    (b : Bool) (c : Content) (hphys : getMirrorPhysical e fs = some (b, c))
    (hshape : (e.isDirectory = true → ∃ files, c = .dir files) ∧
              (e.isDirectory = false → ∃ d, c = .file d))
    (hoff : offenderList e fs = [])
    (hstale : fs.source = none → fs.backup = none) :
    (swapOutEntry e (swapInEntry host e fs).1).1.source = fs.source ∧
    (swapOutEntry e (swapInEntry host e fs).1).1.mirror = fs.mirror ∧
    (swapOutEntry e (swapInEntry host e fs).1).1.neutral = fs.neutral := by
  rcases e with ⟨rel, isDir⟩
  rcases fs with ⟨src, mir, neu, sen, bak⟩
  simp only at hsent hphys hoff hstale ⊢
  subst hsent
  cases isDir with
  | true =>
    obtain ⟨files, rfl⟩ := hshape.1 rfl
    cases mir with
    | none => simp [getMirrorPhysical] at hphys
    | some mc =>
      have hbc : b = false ∧ mc = Content.dir files := by
        simp [getMirrorPhysical] at hphys
        exact ⟨hphys.1, hphys.2⟩
      obtain ⟨rfl, rfl⟩ := hbc
      have hfiles : ∀ pr ∈ files, ¬(lastName pr.1 = some ".gitignore") := by
        simpa [offenderList, List.map_eq_nil_iff, List.filter_eq_nil_iff] using hoff
      cases src with
      | some S =>
        simp [swapInEntry, getMirrorPhysical, swapOutEntry, storeSourceInMirror,
          enableContent, disableContent, disableFiles_enableFiles files hfiles]
      | none =>
        have hbak : bak = none := hstale rfl
        subst hbak
        simp [swapInEntry, getMirrorPhysical, swapOutEntry, storeSourceInMirror,
          enableContent, disableContent, disableFiles_enableFiles files hfiles]
  | false =>
    obtain ⟨d, rfl⟩ := hshape.2 rfl
    by_cases hg : lastName rel = some ".gitignore"
    · cases neu with
      | none => simp [getMirrorPhysical, entryName, hg] at hphys
      | some nc =>
        have hbc : b = true ∧ nc = Content.file d := by
          simp [getMirrorPhysical, entryName, hg] at hphys
          exact ⟨hphys.1, hphys.2⟩
        obtain ⟨rfl, rfl⟩ := hbc
        cases mir with
        | some mc => simp [offenderList, entryName, hg] at hoff
        | none =>
          cases src with
          | some S =>
            simp [swapInEntry, getMirrorPhysical, swapOutEntry,
              storeSourceInMirror, entryName, hg]
          | none =>
            have hbak : bak = none := hstale rfl
            subst hbak
            simp [swapInEntry, getMirrorPhysical, swapOutEntry,
              storeSourceInMirror, entryName, hg]
    · cases mir with
      | none => simp [getMirrorPhysical, entryName, hg] at hphys
      | some mc =>
        have hbc : b = false ∧ mc = Content.file d := by
          simp [getMirrorPhysical, entryName, hg] at hphys
          exact ⟨hphys.1, hphys.2⟩
        obtain ⟨rfl, rfl⟩ := hbc
        cases src with
        | some S =>
          simp [swapInEntry, getMirrorPhysical, swapOutEntry,
            storeSourceInMirror, entryName, hg]
        | none =>
          have hbak : bak = none := hstale rfl
          subst hbak
          simp [swapInEntry, getMirrorPhysical, swapOutEntry,
            storeSourceInMirror, entryName, hg]

lemma swapIn_singleton (manageEnv : Bool) (host : String) (e : MEntry) (fs : EntryFs)
    (envrc : Option (List String)) (doc : List String)
    (hoff : offenderList e fs = []) :
    swapIn manageEnv host ⟨[(e, fs)], envrc, doc⟩ =
      .ok (⟨[(e, (swapInEntry host e fs).1)], updateEnvrcFile manageEnv true envrc, doc⟩,
           [(swapInEntry host e fs).2]) := by
  have hall : allOffenders [(e, fs)] = [] := by simp [allOffenders, hoff]
  unfold swapIn
  simp only [hall]
  simp

lemma swapOut_singleton (manageEnv : Bool) (e : MEntry) (fs : EntryFs)
    (envrc : Option (List String)) (doc : List String) :
    swapOut manageEnv ⟨[(e, fs)], envrc, doc⟩ =
      (⟨[(e, (swapOutEntry e fs).1)], updateEnvrcFile manageEnv false envrc, doc⟩,
       (swapOutEntry e fs).2) := by
  unfold swapOut
  simp

/-! ### Theorems: swap_in / swap_out round trip (C1) -/

/-- C1 counterexample: an entry with no sentinel and no mirror content but
an existing source refutes the round trip over arbitrary filesystem states:
swap_in only warns, and swap_out then runs its mirror-initialization case,
moving the source into the mirror — the source (some content before the
pair of calls) is empty afterwards, and the mirror changed too. -/
theorem roundtrip_fails_on_missing_mirror :
    swapIn false "h"
        ⟨[(⟨["a.yml"], false⟩, ⟨some (.file [120]), none, none, none, none⟩)],
         none, []⟩ =
      .ok (⟨[(⟨["a.yml"], false⟩, ⟨some (.file [120]), none, none, none, none⟩)],
            none, []⟩,
           [Msg.warnMirrorMissing ["a.yml"]]) ∧
    (swapOut false
        ⟨[(⟨["a.yml"], false⟩, ⟨some (.file [120]), none, none, none, none⟩)],
         none, []⟩).1 =
      ⟨[(⟨["a.yml"], false⟩, ⟨none, some (.file [120]), none, none, none⟩)],
       none, []⟩ ∧
    some (Content.file [120]) ≠ (none : Option Content) := by
  refine ⟨rfl, rfl, by decide⟩

/-- C1 (amended): for an entry that is cleanly swapped out — no sentinel,
physical mirror content present and of the entry's kind (directory entries
hold directories, file entries files), no bare .gitignore among the
pre-flight offenders for it, and no stale backup (a backup only exists when
a source does) — swap_in followed by swap_out restores the source content
byte-for-byte and leaves the mirror content for the entry (its mirror and
neutralized-.gitignore locations) identical to its pre-swap-in state. -/
theorem swapIn_swapOut_roundtrip
    (manageEnv : Bool) (host : String) (e : MEntry) (fs : EntryFs)
    (envrc : Option (List String)) (doc : List String)
    (hsent : fs.sentinel = none)
    (b : Bool) (c : Content) (hphys : getMirrorPhysical e fs = some (b, c))
    (hshape : (e.isDirectory = true → ∃ files, c = .dir files) ∧
              (e.isDirectory = false → ∃ d, c = .file d))
    (hoff : offenderList e fs = [])
    (hstale : fs.source = none → fs.backup = none) :
    ∃ mid msgs1, swapIn manageEnv host ⟨[(e, fs)], envrc, doc⟩ = .ok (mid, msgs1) ∧
      ∃ fs2 env2 msgs2, swapOut manageEnv mid = (⟨[(e, fs2)], env2, doc⟩, msgs2) ∧
        fs2.source = fs.source ∧ fs2.mirror = fs.mirror ∧ fs2.neutral = fs.neutral := by
  refine ⟨_, _, swapIn_singleton manageEnv host e fs envrc doc hoff, ?_⟩
  refine ⟨(swapOutEntry e (swapInEntry host e fs).1).1, _, _,
    swapOut_singleton manageEnv e (swapInEntry host e fs).1 _ doc, ?_⟩
  exact entryRoundTrip host e fs hsent b c hphys hshape hoff hstale

/-- C1 witness: the amended round trip at a concrete file entry with mirror
content "2" and source content "1". -/
theorem swapIn_swapOut_roundtrip_witness :
    ∃ mid msgs1, swapIn true "h"
        ⟨[(⟨["a.yml"], false⟩, ⟨some (.file [1]), some (.file [2]), none, none, none⟩)],
         some [], []⟩ = .ok (mid, msgs1) ∧
      ∃ fs2 env2 msgs2, swapOut true mid =
          (⟨[(⟨["a.yml"], false⟩, fs2)], env2, []⟩, msgs2) ∧
        fs2.source = some (Content.file [1]) ∧
        fs2.mirror = some (Content.file [2]) ∧
        fs2.neutral = none :=
  swapIn_swapOut_roundtrip true "h" ⟨["a.yml"], false⟩
    ⟨some (.file [1]), some (.file [2]), none, none, none⟩ (some []) []
    rfl false (.file [2]) rfl
    ⟨fun hd => by simp at hd, fun _ => ⟨[2], rfl⟩⟩ (by decide)
    (fun hs => by simp at hs)

/-! ### Theorems: swap_in idempotence (C5) -/

/-- C5 counterexample: on an entry held by another host, the second of two
identical swap_in calls reports the cross-host conflict again, not "already
swapped in" (the filesystem state is nonetheless unchanged), so the claim's
message part fails on such states. -/
theorem swapIn_twice_conflict_not_already :
    swapIn true "local"
        ⟨[(⟨["a.yml"], false⟩,
           ⟨some (.file [1]), some (.file [2]), none, some ("other", .file [2]), none⟩)],
         some [], []⟩ =
      .ok (⟨[(⟨["a.yml"], false⟩,
              ⟨some (.file [1]), some (.file [2]), none, some ("other", .file [2]), none⟩)],
            some ["export RPLC_SWAPPED=1"], []⟩,
           [Msg.conflictOtherHost ["a.yml"] "other"]) ∧
    swapIn true "local"
        ⟨[(⟨["a.yml"], false⟩,
           ⟨some (.file [1]), some (.file [2]), none, some ("other", .file [2]), none⟩)],
         some ["export RPLC_SWAPPED=1"], []⟩ =
      .ok (⟨[(⟨["a.yml"], false⟩,
              ⟨some (.file [1]), some (.file [2]), none, some ("other", .file [2]), none⟩)],
            some ["export RPLC_SWAPPED=1"], []⟩,
           [Msg.conflictOtherHost ["a.yml"] "other"]) ∧
    Msg.alreadySwappedIn ["a.yml"] ∉ [Msg.conflictOtherHost ["a.yml"] "other"] := by
  refine ⟨rfl, rfl, by decide⟩

/-- C5 (amended): swapping in the same entry twice from the same host
produces the same filesystem state as a single call, and the second call
reports "already swapped in" rather than failing, whenever the pre-flight
passes and the first call either finds the entry already swapped in on this
host or actually swaps it in (no sentinel and existing mirror content);
when a foreign host holds the entry or the mirror content is missing, the
state is still unchanged but the second report repeats the conflict or the
warning instead. -/
theorem swapIn_twice_same_state_reports_already
    (manageEnv : Bool) (host : String) (e : MEntry) (fs : EntryFs)
    (envrc : Option (List String)) (doc : List String)
    (hoff : offenderList e fs = [])
    (hready : (∃ c, fs.sentinel = some (host, c)) ∨
              (fs.sentinel = none ∧ (getMirrorPhysical e fs).isSome = true)) :
    ∃ s1 msgs1, swapIn manageEnv host ⟨[(e, fs)], envrc, doc⟩ = .ok (s1, msgs1) ∧
      swapIn manageEnv host s1 = .ok (s1, [Msg.alreadySwappedIn e.relPath]) := by
  have hoff1 : offenderList e (swapInEntry host e fs).1 = [] :=
    offenderList_after_swapInEntry host e fs hoff
  rcases hready with ⟨c, hc⟩ | ⟨hnone, hphys⟩
  · have hfs1 : swapInEntry host e fs = (fs, Msg.alreadySwappedIn e.relPath) := by
      unfold swapInEntry
      rw [hc]
      simp
    refine ⟨⟨[(e, fs)], updateEnvrcFile manageEnv true envrc, doc⟩,
      [Msg.alreadySwappedIn e.relPath], ?_, ?_⟩
    · rw [swapIn_singleton manageEnv host e fs envrc doc hoff, hfs1]
    · rw [swapIn_singleton manageEnv host e fs _ doc hoff, hfs1,
        updateEnvrcFile_true_idem]
  · obtain ⟨⟨b, c⟩, hbc⟩ : ∃ bc, getMirrorPhysical e fs = some bc := by
      cases hx : getMirrorPhysical e fs with
      | none => rw [hx] at hphys; simp at hphys
      | some bc => exact ⟨bc, rfl⟩
    have hs1 : (swapInEntry host e fs).1.sentinel = some (host, c) :=
      swapInEntry_sentinel_preserved host e fs hnone b c hbc
    have hstep2 : swapInEntry host e (swapInEntry host e fs).1 =
        ((swapInEntry host e fs).1, Msg.alreadySwappedIn e.relPath) := by
      conv in swapInEntry host e (swapInEntry host e fs).1 => rw [swapInEntry]
      rw [hs1]
      simp
    refine ⟨⟨[(e, (swapInEntry host e fs).1)], updateEnvrcFile manageEnv true envrc, doc⟩,
      [(swapInEntry host e fs).2], ?_, ?_⟩
    · exact swapIn_singleton manageEnv host e fs envrc doc hoff
    · rw [swapIn_singleton manageEnv host e (swapInEntry host e fs).1 _ doc hoff1,
        hstep2, updateEnvrcFile_true_idem]

/-- C5 witness: the amended idempotence at a concrete entry whose first call
swaps it in. -/
theorem swapIn_twice_same_state_reports_already_witness :
    ∃ s1 msgs1, swapIn true "h"
        ⟨[(⟨["cfg.yml"], false⟩,
           ⟨some (.file [5]), some (.file [6]), none, none, none⟩)],
         some ["x"], []⟩ = .ok (s1, msgs1) ∧
      swapIn true "h" s1 = .ok (s1, [Msg.alreadySwappedIn ["cfg.yml"]]) :=
  swapIn_twice_same_state_reports_already true "h" ⟨["cfg.yml"], false⟩
    ⟨some (.file [5]), some (.file [6]), none, none, none⟩ (some ["x"]) []
    (by decide) (Or.inr ⟨rfl, by decide⟩)

/-! ### Theorems: __init__ path binding (C10) -/

lemma isPrefixOf_eq_append (l1 : List String) :
    ∀ l2 : List String, l1.isPrefixOf l2 = true → l2 = l1 ++ l2.drop l1.length := by
  induction l1 with
  | nil => intro l2 _; simp
  | cons a as ih =>
    intro l2 h
    cases l2 with
    | nil => simp [List.isPrefixOf] at h
    | cons b bs =>
      simp only [List.isPrefixOf, Bool.and_eq_true, beq_iff_eq] at h
      obtain ⟨rfl, h2⟩ := h
      have := ih bs h2
      simp only [List.length_cons, List.drop_succ_cons, List.cons_append]
      exact congrArg (a :: ·) this

lemma normStep_clean_append (acc : List String) (c : String)
    (h1 : c ≠ "") (h2 : c ≠ ".") (h3 : c ≠ "..") :
    normStep acc c = acc ++ [c] := by
  simp [normStep, h1, h2, h3]

lemma foldl_normStep_clean (rel : List String)
    (h : ∀ x ∈ rel, x ≠ "" ∧ x ≠ "." ∧ x ≠ "..") :
    ∀ acc, List.foldl normStep acc rel = acc ++ rel := by
  induction rel with
  | nil => intro acc; simp
  | cons c r ih =>
    intro acc
    obtain ⟨h1, h2, h3⟩ := h c (List.mem_cons_self c r)
    rw [List.foldl_cons, normStep_clean_append acc c h1 h2 h3,
      ih (fun x hx => h x (List.mem_cons_of_mem c hx)) (acc ++ [c])]
    simp

lemma normStep_preserves_clean (acc : List String) (c : String)
    (hacc : ∀ x ∈ acc, x ≠ "" ∧ x ≠ "." ∧ x ≠ "..") :
    ∀ y ∈ normStep acc c, y ≠ "" ∧ y ≠ "." ∧ y ≠ ".." := by
  intro y hy
  unfold normStep at hy
  by_cases hc1 : (c = "" || c = ".") = true
  · rw [if_pos hc1] at hy
    exact hacc y hy
  · rw [if_neg hc1] at hy
    by_cases hc2 : c = ".."
    · rw [if_pos hc2] at hy
      exact hacc y (List.dropLast_subset acc hy)
    · rw [if_neg hc2] at hy
      rcases List.mem_append.mp hy with hmem | hmem
      · exact hacc y hmem
      · have hyc : y = c := by simpa using hmem
        subst hyc
        simp only [Bool.or_eq_true, decide_eq_true_eq] at hc1
        push_neg at hc1
        exact ⟨hc1.1, hc1.2, hc2⟩

lemma foldl_normStep_clean_out (cs : List String) :
    ∀ acc, (∀ x ∈ acc, x ≠ "" ∧ x ≠ "." ∧ x ≠ "..") →
      ∀ y ∈ List.foldl normStep acc cs, y ≠ "" ∧ y ≠ "." ∧ y ≠ ".." := by
  induction cs with
  | nil => intro acc hacc y hy; exact hacc y hy
  | cons c r ih =>
    intro acc hacc y hy
    exact ih (normStep acc c) (normStep_preserves_clean acc c hacc) y hy

lemma normAbs_clean (cs : List String) :
    ∀ y ∈ normAbs cs, y ≠ "" ∧ y ≠ "." ∧ y ≠ ".." :=
  foldl_normStep_clean_out cs [] (by intro x hx; exact absurd hx (List.not_mem_nil x))

lemma normAbs_idem (cs : List String) : normAbs (normAbs cs) = normAbs cs := by
  have := foldl_normStep_clean (normAbs cs) (normAbs_clean cs) []
  simpa [normAbs] using this

lemma relativeToP_eq_append (p bse : PathT) (rel : List String)
    (h : relativeToP p bse = some rel) :
    p.comps = bse.comps ++ rel := by
  unfold relativeToP at h
  by_cases hcond : (p.abs = bse.abs && bse.comps.isPrefixOf p.comps) = true
  · rw [if_pos hcond] at h
    obtain ⟨_, hpre⟩ := Bool.and_eq_true_iff.mp hcond
    have hx := isPrefixOf_eq_append bse.comps p.comps hpre
    injection h with h
    rw [h] at hx
    exact hx
  · rw [if_neg hcond] at h
    exact absurd h (by simp)

lemma bindGo_cons_ok (projR mirrorR qp : PathT) (qd : Bool)
    (tl : List (PathT × Bool)) (bs : List BoundEntry)
    (h : bindGo projR mirrorR ((qp, qd) :: tl) = .ok bs) :
    ∃ bs', bindGo projR mirrorR tl = .ok bs' := by
  unfold bindGo at h
  cases hsrc : relativeToP (resolveP (pjoin projR qp)) projR with
  | none =>
    simp only [hsrc] at h
    exact absurd h (by simp)
  | some rel =>
    simp only [hsrc] at h
    cases hrest : bindGo projR mirrorR tl with
    | error e =>
      simp only [hrest] at h
      exact absurd h (by simp)
    | ok bs' => exact ⟨bs', rfl⟩

/-- C10: MirrorManager construction fails with an error whenever a parsed
entry's expanded path is absolute and does not lie under the (resolved)
project directory, so binding cannot relativize it; and whenever
construction succeeds, every bound entry's source and mirror paths are the
project and mirror roots extended by one common relative suffix. -/
theorem mirrorManager_binding :
    (∀ (projDir mirrorDir : PathT) (entries : List (PathT × Bool)) (p : PathT) (d : Bool),
      projDir.abs = true → (p, d) ∈ entries → p.abs = true →
      (resolveP projDir).comps.isPrefixOf (resolveP p).comps = false →
      ∃ err, bindConfigs projDir mirrorDir entries = .error err) ∧
    (∀ (projDir mirrorDir : PathT) (entries : List (PathT × Bool))
        (bs : List BoundEntry),
      projDir.abs = true → mirrorDir.abs = true →
      bindConfigs projDir mirrorDir entries = .ok bs →
      ∀ be ∈ bs, ∃ rel, be.source.comps = (resolveP projDir).comps ++ rel ∧
        be.mirror.comps = (resolveP mirrorDir).comps ++ rel) := by
  constructor
  · intro projDir mirrorDir entries p d hproj hmem habs hpre
    unfold bindConfigs
    induction entries with
    | nil => exact absurd hmem (List.not_mem_nil _)
    | cons hd tl ih =>
      obtain ⟨q, dq⟩ := hd
      rcases List.mem_cons.mp hmem with hhd | htl
      · injection hhd with h1 h2
        subst h1
        subst h2
        refine ⟨resolveP p, ?_⟩
        unfold bindGo
        have hjoin : pjoin (resolveP projDir) p = p := by
          simp [pjoin, habs]
        have hrel : relativeToP (resolveP p) (resolveP projDir) = none := by
          unfold relativeToP
          rw [hpre]
          simp
        simp [hjoin, hrel]
      · cases hall : bindGo (resolveP projDir) (resolveP mirrorDir) ((q, dq) :: tl) with
        | error e => exact ⟨e, rfl⟩
        | ok bs =>
          obtain ⟨bs', hbs'⟩ := bindGo_cons_ok _ _ q dq tl bs hall
          obtain ⟨err, herr⟩ := ih htl
          rw [hbs'] at herr
          exact absurd herr (by simp)
  · intro projDir mirrorDir entries bs hproj hmirror hok be hbe
    unfold bindConfigs at hok
    induction entries generalizing bs with
    | nil =>
      unfold bindGo at hok
      injection hok with hok
      rw [← hok] at hbe
      exact absurd hbe (List.not_mem_nil _)
    | cons hd tl ih =>
      obtain ⟨q, dq⟩ := hd
      unfold bindGo at hok
      cases hsrc : relativeToP (resolveP (pjoin (resolveP projDir) q)) (resolveP projDir) with
      | none =>
        simp only [hsrc] at hok
        exact absurd hok (by simp)
      | some rel =>
        simp only [hsrc] at hok
        cases hrest : bindGo (resolveP projDir) (resolveP mirrorDir) tl with
        | error err =>
          simp only [hrest] at hok
          exact absurd hok (by simp)
        | ok bs' =>
          simp only [hrest] at hok
          injection hok with hok
          rw [← hok] at hbe
          rcases List.mem_cons.mp hbe with hbe1 | hbe2
          · subst hbe1
            refine ⟨rel, ?_, ?_⟩
            · exact relativeToP_eq_append _ _ rel hsrc
            · have hrelclean : ∀ x ∈ rel, x ≠ "" ∧ x ≠ "." ∧ x ≠ ".." := by
                have hsrcN : ∃ cs, (resolveP (pjoin (resolveP projDir) q)).comps = normAbs cs := by
                  by_cases hq : q.abs = true
                  · exact ⟨q.comps, by simp [pjoin, hq, resolveP]⟩
                  · refine ⟨(resolveP projDir).comps ++ q.comps, ?_⟩
                    simp [pjoin, hq, resolveP, hproj]
                obtain ⟨cs, hcs⟩ := hsrcN
                have happ := relativeToP_eq_append _ _ rel hsrc
                intro x hx
                apply normAbs_clean cs
                rw [← hcs, happ]
                exact List.mem_append_right _ hx
              have hm : pjoin (resolveP mirrorDir) ⟨false, rel⟩ =
                  ⟨(resolveP mirrorDir).abs, (resolveP mirrorDir).comps ++ rel⟩ := by
                simp [pjoin]
              have hres : resolveP ⟨(resolveP mirrorDir).abs, (resolveP mirrorDir).comps ++ rel⟩ =
                  ⟨(resolveP mirrorDir).abs, normAbs ((resolveP mirrorDir).comps ++ rel)⟩ := by
                simp [resolveP, hmirror]
              have hcomps : normAbs ((resolveP mirrorDir).comps ++ rel) =
                  (resolveP mirrorDir).comps ++ rel := by
                have hmc : (resolveP mirrorDir).comps = normAbs mirrorDir.comps := by
                  simp [resolveP, hmirror]
                rw [hmc]
                unfold normAbs
                rw [List.foldl_append]
                rw [show List.foldl normStep [] (List.foldl normStep [] mirrorDir.comps) =
                    List.foldl normStep [] mirrorDir.comps from normAbs_idem mirrorDir.comps]
                exact foldl_normStep_clean rel hrelclean _
              show (resolveP (pjoin (resolveP mirrorDir) ⟨false, rel⟩)).comps =
                (resolveP mirrorDir).comps ++ rel
              rw [hm, hres]
              exact hcomps
          · exact ih bs' hrest hbe2

/-- C10 witness: binding fails for an absolute entry outside the project
directory, and a successful binding gives source and mirror the same
relative suffix. -/
theorem mirrorManager_binding_witness :
    (∃ err, bindConfigs ⟨true, ["home", "u", "proj"]⟩ ⟨true, ["home", "u", "mirror"]⟩
        [(⟨true, ["etc", "x"]⟩, false)] = .error err) ∧
    (∀ be ∈ [({ source := ⟨true, ["home", "u", "proj", "a.yml"]⟩,
                mirror := ⟨true, ["home", "u", "mirror", "a.yml"]⟩,
                isDirectory := false } : BoundEntry)],
      ∃ rel, be.source.comps = (resolveP ⟨true, ["home", "u", "proj"]⟩).comps ++ rel ∧
        be.mirror.comps = (resolveP ⟨true, ["home", "u", "mirror"]⟩).comps ++ rel) :=
  ⟨mirrorManager_binding.1 ⟨true, ["home", "u", "proj"]⟩ ⟨true, ["home", "u", "mirror"]⟩
      [(⟨true, ["etc", "x"]⟩, false)] ⟨true, ["etc", "x"]⟩ false rfl
      (List.mem_singleton.mpr rfl) rfl (by decide),
   mirrorManager_binding.2 ⟨true, ["home", "u", "proj"]⟩ ⟨true, ["home", "u", "mirror"]⟩
      [(⟨false, ["a.yml"]⟩, false)] _ rfl rfl rfl⟩

end Rplc
